import Mathlib

/-!
Verification of the connectivity analyzer and structural validator of the
`memebu-ontology-engine` repository (`src/ontology_engine/validator.py`),
as a shallow embedding in Lean 4.

Modelling conventions:
* RDF triples are `(subject, predicate, object)` records over `String`
  identifiers, mirroring rdflib triples of URIRefs.
* Python `set` objects are modelled as duplicate-free lists; the list order
  models the (hash-dependent) iteration order of the set, so functions that
  receive a set receive one particular iteration order of it.
* Python `float` arithmetic is modelled exactly over `ℚ`; `round(x, k)` is
  modelled as round-half-to-even at the k-th decimal.
* The BFS work loop is driven by an explicit fuel argument that strictly
  dominates the number of loop iterations the Python `while queue:` loop
  can perform (every enqueue stems from one of the at most `|classes|`
  first visits, each enqueueing at most the total adjacency size).
-/

namespace OntologyEngine

/-- An RDF triple as stored by rdflib: subject, predicate, object. -/
structure Triple where
  subj : String
  pred : String
  obj : String
deriving DecidableEq

/-- `rdf:type` predicate URI. -/
def rdfType : String := "http://www.w3.org/1999/02/22-rdf-syntax-ns#type"

/-- `owl:Class` URI (`_OWL_CLASS` in the source). -/
def owlClass : String := "http://www.w3.org/2002/07/owl#Class"

/-- `owl:ObjectProperty` URI (`_OWL_OBJECT_PROPERTY`). -/
def owlObjectProperty : String := "http://www.w3.org/2002/07/owl#ObjectProperty"

/-- `owl:DatatypeProperty` URI (`_OWL_DATATYPE_PROPERTY`). -/
def owlDatatypeProperty : String := "http://www.w3.org/2002/07/owl#DatatypeProperty"

/-- `owl:NamedIndividual` URI (`_OWL_NAMED_INDIVIDUAL`). -/
def owlNamedIndividual : String := "http://www.w3.org/2002/07/owl#NamedIndividual"

/-- `rdfs:subClassOf` predicate URI. -/
def rdfsSubClassOf : String := "http://www.w3.org/2000/01/rdf-schema#subClassOf"

/-- `rdfs:domain` predicate URI. -/
def rdfsDomain : String := "http://www.w3.org/2000/01/rdf-schema#domain"

/-- `rdfs:range` predicate URI. -/
def rdfsRange : String := "http://www.w3.org/2000/01/rdf-schema#range"

/-- `rdfs:label` predicate URI. -/
def rdfsLabel : String := "http://www.w3.org/2000/01/rdf-schema#label"

/-- `rdfs:comment` predicate URI. -/
def rdfsComment : String := "http://www.w3.org/2000/01/rdf-schema#comment"

/-- The `_MIN_PROPERTY_COVERAGE` threshold constant, 0.40. -/
def minPropertyCoverage : ℚ := mkRat 2 5

/-- The `_MIN_PROP_CLASS_RATIO` threshold constant, 0.40. -/
def minPropClassRatio : ℚ := mkRat 2 5

/-- The `_MAX_TAXONOMY_ONLY_RATIO` threshold constant, 0.65. -/
def maxTaxonomyOnlyRatio : ℚ := mkRat 13 20

/-- Adding an element to a Python-set modelled as a duplicate-free list:
no-op if present, else appended. -/
def dedupAdd (acc : List String) (x : String) : List String :=
  if x ∈ acc then acc else acc ++ [x]

/-- `set(...)` built from a list, keeping first-occurrence order. -/
def dedupList (l : List String) : List String :=
  l.foldl dedupAdd []

/-- Set union `a | b` of two duplicate-free lists, keeping `a`'s order
first and then the new elements of `b`. -/
def dedupUnion (a b : List String) : List String :=
  b.foldl dedupAdd a

/-- Round-half-to-even of the fraction `n / d` (for `d > 0`), as Python's
`round` on the exact value: floor when the fractional part is below one
half, ceiling when above, nearest even integer at exactly one half. -/
def rheNum (n d : ℤ) : ℤ :=
  let f := n.fdiv d
  let r2 := 2 * (n - f * d)
  if r2 < d then f
  else if d < r2 then f + 1
  else if f % 2 = 0 then f else f + 1

/-- Python's `round(x, 3)` on the exact value. -/
def round3 (q : ℚ) : ℚ := mkRat (rheNum (q.num * 1000) q.den) 1000

/-- Python's `round(x, 2)` on the exact value. -/
def round2 (q : ℚ) : ℚ := mkRat (rheNum (q.num * 100) q.den) 100

/-- Split a character list at every occurrence of the separator, as
Python's `str.split` on a one-character separator. -/
def splitOnChar (c : Char) : List Char → List (List Char)
  | [] => [[]]
  | x :: xs =>
    match splitOnChar c xs with
    | [] => [[]]
    | g :: gs => if x = c then [] :: g :: gs else (x :: g) :: gs

/-- `_local_name`: `s.split("#")[-1] if "#" in s else s.split("/")[-1]`. -/
def localName (s : String) : String :=
  if s.data.contains '#' then
    String.mk ((splitOnChar '#' s.data).getLastD s.data)
  else
    String.mk ((splitOnChar '/' s.data).getLastD s.data)

/-- Insert into a sorted list: `a` goes before the first element that does
not strictly precede it (a stable insertion). -/
def insOrd {α : Type} (lt : α → α → Bool) (a : α) : List α → List α
  | [] => [a]
  | b :: l => if lt b a then b :: insOrd lt a l else a :: b :: l

/-- Stable sort by the strict order `lt` (Python's `sorted`). -/
def sortedBy {α : Type} (lt : α → α → Bool) (l : List α) : List α :=
  l.foldr (insOrd lt) []

/-- Lexicographic code-point comparison of character lists (the order
Python uses for `str`). -/
def charListLt : List Char → List Char → Bool
  | [], [] => false
  | [], _ :: _ => true
  | _ :: _, [] => false
  | a :: as, b :: bs =>
    if a.toNat < b.toNat then true
    else if b.toNat < a.toNat then false
    else charListLt as bs

/-- Python `sorted` on strings (code-point lexicographic order). -/
def sortStrings (l : List String) : List String :=
  sortedBy (fun a b => charListLt a.data b.data) l

/-- `sorted(components, key=len, reverse=True)`: stable, descending by
size; ties keep discovery order. -/
def sortBySizeDesc (l : List (List String)) : List (List String) :=
  sortedBy (fun a b => decide (b.length < a.length)) l

/-- The undirected adjacency map `adjacency: dict[URIRef, set[URIRef]]`,
as an association list in key-insertion order with duplicate-free
neighbour lists in insertion order. -/
abbrev Adj : Type := List (String × List String)

/-- Reading `adjacency[k]` (a `defaultdict(set)` read defaults to empty). -/
def adjGet (adj : Adj) (k : String) : List String :=
  match adj.find? (fun e => e.1 == k) with
  | some e => e.2
  | none => []

/-- `adjacency[k].add(v)` on the `defaultdict(set)`. -/
def adjAdd (adj : Adj) (k v : String) : Adj :=
  match adj with
  | [] => [(k, [v])]
  | e :: rest =>
    if e.1 = k then (e.1, dedupAdd e.2 v) :: rest
    else e :: adjAdd rest k v

/-- `adjacency.setdefault(k, set())`. -/
def adjSetDefault (adj : Adj) (k : String) : Adj :=
  match adj with
  | [] => [(k, [])]
  | e :: rest => if e.1 = k then e :: rest else e :: adjSetDefault rest k

/-- The set `classes_in_domain`: objects of `rdfs:domain` triples of the
object properties that are declared classes. -/
def classesInDomain (triples : List Triple) (classes objProps : List String) :
    List String :=
  objProps.foldl
    (fun acc p =>
      triples.foldl
        (fun a tr =>
          if tr.subj = p ∧ tr.pred = rdfsDomain ∧ tr.obj ∈ classes then
            dedupAdd a tr.obj
          else a)
        acc)
    []

/-- The set `classes_in_range`, symmetrically over `rdfs:range`. -/
def classesInRange (triples : List Triple) (classes objProps : List String) :
    List String :=
  objProps.foldl
    (fun acc p =>
      triples.foldl
        (fun a tr =>
          if tr.subj = p ∧ tr.pred = rdfsRange ∧ tr.obj ∈ classes then
            dedupAdd a tr.obj
          else a)
        acc)
    []

/-- `classes_in_properties = classes_in_domain | classes_in_range`. -/
def classesInProps (triples : List Triple) (classes objProps : List String) :
    List String :=
  dedupUnion (classesInDomain triples classes objProps)
    (classesInRange triples classes objProps)

/-- The per-property class-filtered domain set
`{o for _, _, o in graph.triples((prop, RDFS.domain, None)) if o in classes}`. -/
def propDomains (triples : List Triple) (classes : List String) (p : String) :
    List String :=
  dedupList ((triples.filter
    (fun tr => decide (tr.subj = p ∧ tr.pred = rdfsDomain ∧ tr.obj ∈ classes))).map
      (fun tr => tr.obj))

/-- The per-property class-filtered range set. -/
def propRanges (triples : List Triple) (classes : List String) (p : String) :
    List String :=
  dedupList ((triples.filter
    (fun tr => decide (tr.subj = p ∧ tr.pred = rdfsRange ∧ tr.obj ∈ classes))).map
      (fun tr => tr.obj))

/-- Adjacency construction: subClassOf edges between declared classes,
domain-range bridging edges through each object property, and a
`setdefault` pass making every class a node. -/
def buildAdjacency (triples : List Triple) (classes objProps : List String) :
    Adj :=
  let a1 := triples.foldl
    (fun acc tr =>
      if tr.pred = rdfsSubClassOf ∧ tr.subj ∈ classes ∧ tr.obj ∈ classes then
        adjAdd (adjAdd acc tr.subj tr.obj) tr.obj tr.subj
      else acc)
    []
  let a2 := objProps.foldl
    (fun acc p =>
      let doms := propDomains triples classes p
      let rngs := propRanges triples classes p
      doms.foldl
        (fun accd d =>
          rngs.foldl (fun accr r => adjAdd (adjAdd accr d r) r d) accd)
        acc)
    a1
  classes.foldl adjSetDefault a2

/-- One run of the inner `while queue:` BFS loop, with explicit fuel.
Returns the updated `visited` set and the discovered `component`. -/
def bfsStep (adj : Adj) : Nat → List String → List String → List String →
    List String × List String
  | 0, visited, _, comp => (visited, comp)
  | _ + 1, visited, [], comp => (visited, comp)
  | fuel + 1, visited, cur :: rest, comp =>
    if cur ∈ visited then bfsStep adj fuel visited rest comp
    else
      let visited2 := cur :: visited
      let comp2 := comp ++ [cur]
      let nbrs := (adjGet adj cur).filter (fun nb => decide (nb ∉ visited2))
      bfsStep adj fuel visited2 (rest ++ nbrs) comp2

/-- Total number of adjacency entries and neighbours, used to size fuel. -/
def adjSize (adj : Adj) : Nat :=
  adj.foldl (fun n e => n + e.2.length + 1) 0

/-- Fuel strictly dominating the iteration count of any BFS run on this
graph: at most `|classes|` first visits, each enqueueing at most the full
adjacency size, plus the initial queue element. -/
def bfsFuel (adj : Adj) (classes : List String) : Nat :=
  classes.length * (1 + adjSize adj) + classes.length + 1

/-- One step of the outer `for node in classes:` loop: skip visited
nodes, else run the BFS and append the discovered component. -/
def outerStep (adj : Adj) (fuel : Nat)
    (st : List String × List (List String)) (node : String) :
    List String × List (List String) :=
  if node ∈ st.1 then st
  else
    let r := bfsStep adj fuel st.1 [node] []
    (r.1, st.2 ++ [r.2])

/-- The outer `for node in classes:` component-discovery loop. -/
def componentsOf (adj : Adj) (classes : List String) : List (List String) :=
  (classes.foldl (outerStep adj (bfsFuel adj classes)) ([], [])).2

/-- `orphan_classes`: classes with no adjacency edges at all. -/
def orphansOf (adj : Adj) (classes : List String) : List String :=
  classes.filter (fun c => decide (adjGet adj c = []))

/-- `taxonomy_only`: classes neither in `classes_in_properties` nor in
`orphan_classes` (both computed once, as the source's locals). -/
def taxonomyOnlyOf (cip orphans classes : List String) : List String :=
  classes.filter (fun c => decide (c ∉ cip ∧ c ∉ orphans))

/-- Sum of class degrees `sum(len(adjacency[cls]) for cls in classes)`. -/
def degreeSum (adj : Adj) (classes : List String) : Nat :=
  classes.foldl (fun s c => s + (adjGet adj c).length) 0

/-- `property_coverage = len(classes_in_properties) / n_classes if n_classes
else 0.0`. -/
def propertyCoverageRaw (triples : List Triple) (classes objProps : List String) :
    ℚ :=
  if classes.length = 0 then 0
  else mkRat (classesInProps triples classes objProps).length classes.length

/-- `prop_class_ratio = n_obj_props / n_classes if n_classes else 0.0`. -/
def propClassRatioRaw (classes objProps : List String) : ℚ :=
  if classes.length = 0 then 0
  else mkRat objProps.length classes.length

/-- `avg_degree = sum(degrees) / n_classes if n_classes else 0.0`. -/
def avgDegreeRaw (adj : Adj) (classes : List String) : ℚ :=
  if classes.length = 0 then 0
  else mkRat (degreeSum adj classes) classes.length

/-- `len(taxonomy_only)` over the adjacency built for these inputs. -/
def taxonomyOnlyCount (triples : List Triple) (classes objProps : List String) :
    Nat :=
  (taxonomyOnlyOf (classesInProps triples classes objProps)
    (orphansOf (buildAdjacency triples classes objProps) classes) classes).length

/-- The raw-metrics dict assembled by `_connectivity_metrics`. -/
structure ConnMetrics where
  orphan_classes : Nat
  property_coverage : ℚ
  property_to_class_ratio : ℚ
  connected_components : Nat
  avg_class_degree : ℚ
  taxonomy_only_classes : Nat
  is_sparse : Bool
deriving DecidableEq

/-- The metrics half of `_connectivity_metrics`. -/
def connMetricsOf (triples : List Triple) (classes objProps : List String) :
    ConnMetrics :=
  let adj := buildAdjacency triples classes objProps
  let cip := classesInProps triples classes objProps
  let orphans := orphansOf adj classes
  let taxOnly := taxonomyOnlyOf cip orphans classes
  { orphan_classes := orphans.length
    property_coverage := round3 (propertyCoverageRaw triples classes objProps)
    property_to_class_ratio := round3 (propClassRatioRaw classes objProps)
    connected_components := (componentsOf adj classes).length
    avg_class_degree := round2 (avgDegreeRaw adj classes)
    taxonomy_only_classes := taxOnly.length
    is_sparse :=
      if classes.length = 0 then false
      else
        decide (propertyCoverageRaw triples classes objProps < minPropertyCoverage) ||
        decide (propClassRatioRaw classes objProps < minPropClassRatio) ||
        decide (mkRat taxOnly.length classes.length > maxTaxonomyOnlyRatio) }

/-- Python's `f"{x:.0%}"` on an exact nonnegative value. -/
def fmtPct (q : ℚ) : String :=
  toString (rheNum (q.num * 100) q.den).toNat ++ "%"

/-- Python's `f"{x:.2f}"` on an exact nonnegative value. -/
def fmt2f (q : ℚ) : String :=
  let c := (rheNum (q.num * 100) q.den).toNat
  toString (c / 100) ++ "." ++ (if c % 100 < 10 then "0" else "") ++ toString (c % 100)

/-- Enumerate with indices starting at `n` (Python `enumerate(l, n)`). -/
def enumFrom {α : Type} (n : Nat) : List α → List (Nat × α)
  | [] => []
  | a :: l => (n, a) :: enumFrom (n + 1) l

/-- One `"  Component {i}: {preview}"` line of the disconnected-components
warning. -/
def componentSummary (e : Nat × List String) : String :=
  let names := sortStrings (e.2.map localName)
  let preview := String.intercalate ", " (names.take 5)
  let preview2 :=
    if names.length > 5 then
      preview ++ ", ... (" ++ toString names.length ++ " classes total)"
    else preview
  "  Component " ++ toString e.1 ++ ": " ++ preview2

/-- The truncate-to-10-plus-count name listing used by the orphan and
taxonomy-only warnings. -/
def preview10 (l : List String) : String :=
  let names := sortStrings (l.map localName)
  let p := String.intercalate ", " (names.take 10)
  if names.length > 10 then p ++ " (and " ++ toString (names.length - 10) ++ " more)"
  else p

/-- The report half of `_connectivity_metrics`: the agent-readable
connectivity analysis text. -/
def connReportOf (triples : List Triple)
    (classes objProps dataProps : List String) : String :=
  let nClasses := classes.length
  let nObjProps := objProps.length
  let adj := buildAdjacency triples classes objProps
  let cip := classesInProps triples classes objProps
  let comps := componentsOf adj classes
  let orphans := orphansOf adj classes
  let taxOnly := taxonomyOnlyOf cip orphans classes
  let coverage := propertyCoverageRaw triples classes objProps
  let ratio := propClassRatioRaw classes objProps
  let covered := cip.length
  let pct := fmtPct coverage
  let headerLines : List String :=
    ["Graph Connectivity Analysis",
     String.join (List.replicate 28 "="),
     "The ontology has " ++ toString nClasses ++ " classes, " ++
       toString nObjProps ++ " object properties, and " ++
       toString dataProps.length ++ " datatype properties.",
     ""]
  let warnings : List String :=
    (if coverage < minPropertyCoverage then
      ["Property coverage is LOW: only " ++ toString covered ++ " of " ++
        toString nClasses ++ " classes (" ++ pct ++
        ") appear in any object property's domain or range. The remaining " ++
        toString (nClasses - covered) ++
        " classes are only connected through the subClassOf hierarchy and have no relational semantics."]
     else []) ++
    (if ratio < minPropClassRatio then
      ["Property-to-class ratio is " ++ fmt2f ratio ++ " (" ++
        toString nObjProps ++ " properties / " ++ toString nClasses ++
        " classes). A well-connected ontology typically has at least 0.4 properties per class."]
     else []) ++
    (if comps.length > 1 then
      ["The graph has " ++ toString comps.length ++
        " disconnected components. The following class groups are completely unconnected to each other:\n" ++
        String.intercalate "\n"
          ((enumFrom 1 (sortBySizeDesc comps)).map componentSummary)]
     else []) ++
    (if orphans ≠ [] then
      [toString orphans.length ++
        " orphan class(es) have NO connections at all (no subClassOf, no property references): " ++
        preview10 orphans]
     else []) ++
    (if nClasses ≠ 0 ∧ mkRat taxOnly.length nClasses > maxTaxonomyOnlyRatio then
      [toString taxOnly.length ++ " classes (" ++
        fmtPct (mkRat taxOnly.length nClasses) ++
        ") are taxonomy-only — connected solely through subClassOf and never referenced by any object property. Consider adding object properties that relate these classes to others. Taxonomy-only classes: " ++
        preview10 taxOnly]
     else [])
  let lines : List String :=
    if warnings ≠ [] then
      headerLines ++ ["Sparsity warnings:"] ++ warnings.map (fun w => "- " ++ w)
    else
      headerLines ++
        ["All connectivity checks passed:",
         "- Property coverage: " ++ toString covered ++ " of " ++
           toString nClasses ++ " classes (" ++ pct ++
           ") appear in object property domain/range.",
         "- Property-to-class ratio: " ++ fmt2f ratio ++ " (" ++
           toString nObjProps ++ "/" ++ toString nClasses ++ ").",
         "- The graph is fully connected (" ++ toString comps.length ++
           " component).",
         if orphans ≠ [] then
           "- " ++ toString orphans.length ++ " orphan class(es) detected."
         else "- No orphan classes detected.",
         "- " ++ toString taxOnly.length ++ " taxonomy-only classes (" ++
           (if nClasses ≠ 0 then
             fmtPct (mkRat taxOnly.length nClasses)
            else "0%") ++ ") — within acceptable range."]
  String.intercalate "\n" lines

/-- `_connectivity_metrics(graph, classes, obj_props, data_props,
individuals)`: the `(metrics, report)` pair. The `individuals` argument is
accepted and unused, as in the source. -/
def connectivityMetrics (triples : List Triple)
    (classes objProps dataProps individuals : List String) :
    ConnMetrics × String :=
  (connMetricsOf triples classes objProps,
   connReportOf triples classes objProps dataProps)

/-- Division that fails (instead of defaulting) on a zero denominator;
used to show the analyzer's own guards make every division site safe. -/
def checkedDiv (a : ℤ) (b : ℕ) : Option ℚ :=
  if b = 0 then none else some (mkRat a b)

/-- `_connectivity_metrics` with every division routed through
`checkedDiv` under exactly the source's zero guards (`... if n_classes
else ...` and the short-circuiting `if n_classes and ...`). The three
report/metric sites that divide `len(taxonomy_only)` by `n_classes` are
computed once here; they divide the same numbers. Returns `none` if any
attempted division has a zero denominator. -/
def connectivityMetricsChecked (triples : List Triple)
    (classes objProps dataProps individuals : List String) :
    Option (ConnMetrics × String) :=
  let nClasses := classes.length
  let nObjProps := objProps.length
  let adj := buildAdjacency triples classes objProps
  let cip := classesInProps triples classes objProps
  let comps := componentsOf adj classes
  let orphans := orphansOf adj classes
  let taxOnly := taxonomyOnlyOf cip orphans classes
  let covered := cip.length
  match
    (if nClasses = 0 then some (0 : ℚ)
     else checkedDiv covered nClasses),
    (if nClasses = 0 then some (0 : ℚ)
     else checkedDiv nObjProps nClasses),
    (if nClasses = 0 then some (0 : ℚ)
     else checkedDiv (degreeSum adj classes) nClasses),
    (if nClasses = 0 then some (0 : ℚ)
     else checkedDiv taxOnly.length nClasses) with
  | some coverage, some ratio, some avgDeg, some taxRatio =>
    let metrics : ConnMetrics :=
      { orphan_classes := orphans.length
        property_coverage := round3 coverage
        property_to_class_ratio := round3 ratio
        connected_components := comps.length
        avg_class_degree := round2 avgDeg
        taxonomy_only_classes := taxOnly.length
        is_sparse :=
          if nClasses = 0 then false
          else
            decide (coverage < minPropertyCoverage) ||
            decide (ratio < minPropClassRatio) ||
            decide (taxRatio > maxTaxonomyOnlyRatio) }
    let pct := fmtPct coverage
    let headerLines : List String :=
      ["Graph Connectivity Analysis",
       String.join (List.replicate 28 "="),
       "The ontology has " ++ toString nClasses ++ " classes, " ++
         toString nObjProps ++ " object properties, and " ++
         toString dataProps.length ++ " datatype properties.",
       ""]
    let warnings : List String :=
      (if coverage < minPropertyCoverage then
        ["Property coverage is LOW: only " ++ toString covered ++ " of " ++
          toString nClasses ++ " classes (" ++ pct ++
          ") appear in any object property's domain or range. The remaining " ++
          toString (nClasses - covered) ++
          " classes are only connected through the subClassOf hierarchy and have no relational semantics."]
       else []) ++
      (if ratio < minPropClassRatio then
        ["Property-to-class ratio is " ++ fmt2f ratio ++ " (" ++
          toString nObjProps ++ " properties / " ++ toString nClasses ++
          " classes). A well-connected ontology typically has at least 0.4 properties per class."]
       else []) ++
      (if comps.length > 1 then
        ["The graph has " ++ toString comps.length ++
          " disconnected components. The following class groups are completely unconnected to each other:\n" ++
          String.intercalate "\n"
            ((enumFrom 1 (sortBySizeDesc comps)).map componentSummary)]
       else []) ++
      (if orphans ≠ [] then
        [toString orphans.length ++
          " orphan class(es) have NO connections at all (no subClassOf, no property references): " ++
          preview10 orphans]
       else []) ++
      (if nClasses ≠ 0 ∧ taxRatio > maxTaxonomyOnlyRatio then
        [toString taxOnly.length ++ " classes (" ++ fmtPct taxRatio ++
          ") are taxonomy-only — connected solely through subClassOf and never referenced by any object property. Consider adding object properties that relate these classes to others. Taxonomy-only classes: " ++
          preview10 taxOnly]
       else [])
    let lines : List String :=
      if warnings ≠ [] then
        headerLines ++ ["Sparsity warnings:"] ++ warnings.map (fun w => "- " ++ w)
      else
        headerLines ++
          ["All connectivity checks passed:",
           "- Property coverage: " ++ toString covered ++ " of " ++
             toString nClasses ++ " classes (" ++ pct ++
             ") appear in object property domain/range.",
           "- Property-to-class ratio: " ++ fmt2f ratio ++ " (" ++
             toString nObjProps ++ "/" ++ toString nClasses ++ ").",
           "- The graph is fully connected (" ++ toString comps.length ++
             " component).",
           if orphans ≠ [] then
             "- " ++ toString orphans.length ++ " orphan class(es) detected."
           else "- No orphan classes detected.",
           "- " ++ toString taxOnly.length ++ " taxonomy-only classes (" ++
             (if nClasses ≠ 0 then fmtPct taxRatio else "0%") ++
             ") — within acceptable range."]
    some (metrics, String.intercalate "\n" lines)
  | _, _, _, _ => none

/-- The `stats` entity-count dict of `validate_ontology`. -/
structure Stats where
  classes : Nat
  object_properties : Nat
  data_properties : Nat
  individuals : Nat
deriving DecidableEq

/-- `ValidationResult` from `models.py`. The dataclass defaults (`{}` for
`stats` and `connectivity`, `""` for `connectivity_report`) mark the
fields as not attached; they are modelled as `none`. -/
structure ValidationResult where
  success : Bool
  raw_output : String
  error_count : Nat
  stats : Option Stats
  connectivity : Option ConnMetrics
  connectivity_report : Option String

/-- The observable outcome of the external file/JSON/rdflib layers for a
document whose valid-JSON top level is an object (dict): the file is
missing, the bytes are not valid JSON (with the decoder's message), or
an object with the presence of `@context`, the presence/arrayness of
`@graph` (`none` = key absent), and the outcome rdflib produces for it
when asked to parse. Valid-JSON documents with a non-object top level
are covered by `OntologyDocFull` and `validateOntologyExc`, where the
source raises instead of returning. -/
inductive OntologyDoc where
  | fileMissing : OntologyDoc
  | invalidJson (exc : String) : OntologyDoc
  | jsonValue (hasContext : Bool) (graphIsArray : Option Bool)
      (rdfParse : Except String (List Triple)) : OntologyDoc

/-- `set(s for s, _, _ in graph.triples((None, RDF.type, ty)))`. -/
def typedSubjects (triples : List Triple) (ty : String) : List String :=
  dedupList ((triples.filter
    (fun tr => decide (tr.pred = rdfType ∧ tr.obj = ty))).map (fun tr => tr.subj))

/-- The truncate-to-10-plus-count rendering of the FR-004/FR-005 name
lists (already local names, in collection order). -/
def truncList (names : List String) : String :=
  String.intercalate ", " (names.take 10) ++
    (if names.length > 10 then
      " (and " ++ toString (names.length - 10) ++ " more)"
     else "")

/-- The result-building tail of `validate_ontology`: failure header plus
indented error lines when any error was collected, else the success
line; stats and connectivity are attached in both cases. -/
def assembleResult (stats : Stats) (conn : ConnMetrics × String)
    (errors : List String) : ValidationResult :=
  if errors ≠ [] then
    let header :=
      "Validation failed with " ++ toString errors.length ++
      " error(s).\nStats: " ++ toString stats.classes ++ " classes, " ++
      toString stats.object_properties ++ " object properties, " ++
      toString stats.data_properties ++ " data properties, " ++
      toString stats.individuals ++ " individuals.\n"
    ⟨false,
      header ++ String.intercalate "\n" (errors.map (fun e => "  - " ++ e)),
      errors.length, some stats, some conn.1, some conn.2⟩
  else
    ⟨true,
      "Validation passed. " ++ toString stats.classes ++ " classes, " ++
        toString stats.object_properties ++ " object properties, " ++
        toString stats.data_properties ++ " data properties, " ++
        toString stats.individuals ++ " individuals.",
      0, some stats, some conn.1, some conn.2⟩

/-- Whether this document makes it through checks 1-3 of
`validate_ontology` (exists, valid JSON, `@context`/`@graph` present and
an array, rdflib parse succeeds). -/
def docLoads : OntologyDoc → Bool
  | .jsonValue true (some true) (.ok _) => true
  | _ => false

/-- `validate_ontology(json_path, min_classes, min_properties,
min_individuals)` on documents whose valid-JSON top level is an object;
`validateOntologyExc` extends it to arbitrary top levels, where the
source can raise. -/
def validateOntology (jsonPath : String) (doc : OntologyDoc)
    (minClasses minProperties minIndividuals : Nat) : ValidationResult :=
  match doc with
  | .fileMissing =>
    ⟨false, "File not found: " ++ jsonPath, 1, none, none, none⟩
  | .invalidJson exc =>
    ⟨false, "Invalid JSON: " ++ exc, 1, none, none, none⟩
  | .jsonValue hasContext graphIsArray rdfParse =>
    let structuralErrors : List String :=
      (if hasContext then [] else ["Missing @context in JSON-LD root"]) ++
      (if graphIsArray.isNone then ["Missing @graph in JSON-LD root"] else []) ++
      (if graphIsArray = some true then [] else ["@graph must be a JSON array"])
    if structuralErrors ≠ [] then
      ⟨false, String.intercalate "\n" structuralErrors,
        structuralErrors.length, none, none, none⟩
    else
      match rdfParse with
      | .error exc =>
        ⟨false, "rdflib failed to parse JSON-LD: " ++ exc, 1, none, none, none⟩
      | .ok triples =>
        let classes := typedSubjects triples owlClass
        let objProps := typedSubjects triples owlObjectProperty
        let dataProps := typedSubjects triples owlDatatypeProperty
        let individuals := typedSubjects triples owlNamedIndividual
        let allProperties := dedupUnion objProps dataProps
        let stats : Stats :=
          ⟨classes.length, objProps.length, dataProps.length, individuals.length⟩
        let propsMissingDomain := (allProperties.filter
          (fun p => !(triples.any
            (fun tr => tr.subj == p && tr.pred == rdfsDomain)))).map localName
        let propsMissingRange := (allProperties.filter
          (fun p => !(triples.any
            (fun tr => tr.subj == p && tr.pred == rdfsRange)))).map localName
        let allEntities := dedupUnion (dedupUnion classes allProperties) individuals
        let missingLabel := (allEntities.filter
          (fun e => !(triples.any
            (fun tr => tr.subj == e && tr.pred == rdfsLabel)))).map localName
        let missingComment := (allEntities.filter
          (fun e => !(triples.any
            (fun tr => tr.subj == e && tr.pred == rdfsComment)))).map localName
        let errors : List String :=
          (if classes.length < minClasses then
            ["FR-001: Too few classes: " ++ toString classes.length ++
              " found, minimum " ++ toString minClasses ++ " required"]
           else []) ++
          (if allProperties.length < minProperties then
            ["FR-002: Too few properties: " ++ toString allProperties.length ++
              " found (object: " ++ toString objProps.length ++ ", data: " ++
              toString dataProps.length ++ "), minimum " ++
              toString minProperties ++ " required"]
           else []) ++
          (if individuals.length < minIndividuals then
            ["FR-003: Too few individuals: " ++ toString individuals.length ++
              " found, minimum " ++ toString minIndividuals ++ " required"]
           else []) ++
          (if propsMissingDomain ≠ [] then
            ["FR-004: Properties missing rdfs:domain: " ++
              truncList propsMissingDomain]
           else []) ++
          (if propsMissingRange ≠ [] then
            ["FR-004: Properties missing rdfs:range: " ++
              truncList propsMissingRange]
           else []) ++
          (if missingLabel ≠ [] then
            ["FR-005: Entities missing rdfs:label: " ++ truncList missingLabel]
           else []) ++
          (if missingComment ≠ [] then
            ["FR-005: Entities missing rdfs:comment: " ++
              truncList missingComment]
           else [])
        let conn := connectivityMetrics triples classes objProps dataProps individuals
        assembleResult stats conn errors

/-- The top-level shape of a valid JSON document, i.e. of the values
`json.load` can produce: an object (dict), with the presence of
`@context` and the presence/arrayness of `@graph`; a non-object value
supporting the `in` operator (an array, checked by element membership,
or a string, checked by substring); or a non-iterable value (number,
boolean, null). -/
inductive JsonTop where
  | obj (hasContext : Bool) (graphIsArray : Option Bool) : JsonTop
  | nonObjIterable : JsonTop
  | nonIterable : JsonTop

/-- An uncaught Python exception escaping `validate_ontology`. -/
inductive PyError where
  | typeError : PyError
  | attributeError : PyError
deriving DecidableEq

/-- The observable outcome of the external layers without assuming an
object top level: the file is missing, the bytes are not valid JSON, or
a valid JSON value with its top-level shape and the outcome rdflib
would produce. -/
inductive OntologyDocFull where
  | fileMissing : OntologyDocFull
  | invalidJson (exc : String) : OntologyDocFull
  | jsonTop (top : JsonTop) (rdfParse : Except String (List Triple)) :
      OntologyDocFull

/-- `validate_ontology` over arbitrary valid-JSON top levels; uncaught
Python exceptions surface as `Except.error`. On an object top level the
function behaves as `validateOntology`. On an array or string top level
the `in` membership tests of check 2 run, but `data.get("@graph")`
raises `AttributeError` (lists and strings have no `get`), discarding
any collected errors. On a number, boolean or null top level
`"@context" not in data` raises `TypeError` (the value is not
iterable). -/
def validateOntologyExc (jsonPath : String) (doc : OntologyDocFull)
    (minClasses minProperties minIndividuals : Nat) :
    Except PyError ValidationResult :=
  match doc with
  | .fileMissing =>
    .ok ⟨false, "File not found: " ++ jsonPath, 1, none, none, none⟩
  | .invalidJson exc =>
    .ok ⟨false, "Invalid JSON: " ++ exc, 1, none, none, none⟩
  | .jsonTop (.obj hasContext graphIsArray) rdfParse =>
    .ok (validateOntology jsonPath (.jsonValue hasContext graphIsArray rdfParse)
      minClasses minProperties minIndividuals)
  | .jsonTop .nonObjIterable _ => .error .attributeError
  | .jsonTop .nonIterable _ => .error .typeError

/-- Whether the full-model document passes checks 1-3 of
`validate_ontology`. -/
def docLoadsFull : OntologyDocFull → Bool
  | .jsonTop (.obj true (some true)) (.ok _) => true
  | _ => false

/-- Spec-level covered-concept predicate, from the claim wording: the
concept appears in some relational property's domain or range. -/
def coveredConceptSpec (triples : List Triple) (objProps : List String)
    (c : String) : Prop :=
  ∃ p ∈ objProps,
    Triple.mk p rdfsDomain c ∈ triples ∨ Triple.mk p rdfsRange c ∈ triples

instance (triples : List Triple) (objProps : List String) (c : String) :
    Decidable (coveredConceptSpec triples objProps c) :=
  List.decidableBEx _ objProps

/-- Spec-level `property_coverage`: covered concepts over all concepts. -/
def propertyCoverageSpec (triples : List Triple) (classes objProps : List String) :
    ℚ :=
  mkRat (classes.filter (fun c => decide (coveredConceptSpec triples objProps c))).length
    classes.length

/-- Spec-level density ratio: relational properties per concept. -/
def densityRatioSpec (classes objProps : List String) : ℚ :=
  mkRat objProps.length classes.length

/-- Spec-level taxonomy-only ratio: the analyzer's taxonomy-only count
over the concept count. -/
def taxonomyOnlyRatioSpec (triples : List Triple) (classes objProps : List String) :
    ℚ :=
  mkRat (taxonomyOnlyCount triples classes objProps) classes.length

/-- The sparsity verdict as a standalone function of the concept count
and the three unrounded sub-threshold values. -/
def sparsityVerdict (n : Nat) (coverage ratio taxRatio : ℚ) : Bool :=
  if n = 0 then false
  else
    decide (coverage < minPropertyCoverage) ||
    decide (ratio < minPropClassRatio) ||
    decide (taxRatio > maxTaxonomyOnlyRatio)

/-- The four recognized declared-type URIs of the classifier. -/
def recognizedTypes : List String :=
  [owlClass, owlObjectProperty, owlDatatypeProperty, owlNamedIndividual]

/-- A triple is relevant to the connectivity analyzer over this class
set unless it is a domain/range assertion whose object is not a declared
class, or a subtype assertion with an endpoint that is not a declared
class. -/
def relevantTriple (classes : List String) (tr : Triple) : Bool :=
  decide (¬(((tr.pred = rdfsDomain ∨ tr.pred = rdfsRange) ∧ tr.obj ∉ classes) ∨
    (tr.pred = rdfsSubClassOf ∧ ¬(tr.subj ∈ classes ∧ tr.obj ∈ classes))))

/-! Concrete inputs used by the claim theorems. -/

/-- The spec's concrete scenario: subtype edges A→B and C→D, one
relational property P with domain {A} and range {C}. -/
def scenarioTriples : List Triple :=
  [⟨"A", rdfsSubClassOf, "B"⟩, ⟨"C", rdfsSubClassOf, "D"⟩,
   ⟨"P", rdfsDomain, "A"⟩, ⟨"P", rdfsRange, "C"⟩]

/-- The five concepts of the concrete scenario. -/
def scenarioClasses : List String := ["A", "B", "C", "D", "E"]

/-- A store declaring one subject with two conflicting types. -/
def conflictTriples : List Triple :=
  [⟨"X", rdfType, owlClass⟩, ⟨"X", rdfType, owlNamedIndividual⟩]

/-- A store in which every subject has exactly one declared type. -/
def cleanTriples : List Triple :=
  [⟨"X", rdfType, owlClass⟩, ⟨"Y", rdfType, owlObjectProperty⟩,
   ⟨"Z", rdfType, owlDatatypeProperty⟩, ⟨"W", rdfType, owlNamedIndividual⟩]

/-- The i-th concept identifier of the large graph: `c`, `cc`, ... -/
def cIdent (i : Nat) : String := String.mk (List.replicate (i + 1) 'c')

/-- The i-th property identifier of the large graph: `p`, `pp`, ... -/
def pIdent (i : Nat) : String := String.mk (List.replicate (i + 1) 'p')

/-- 403 distinct concept identifiers. -/
def bigClasses : List String := (List.range 403).map cIdent

/-- 161 distinct relational-property identifiers. -/
def bigProps : List String := (List.range 161).map pIdent

/-- One `rdfs:domain` triple per property, covering the first 161
concepts; no ranges and no subtype edges. -/
def bigTriples : List Triple :=
  (List.range 161).map (fun i => ⟨pIdent i, rdfsDomain, cIdent i⟩)

/-- A five-concept graph with two domain-only properties covering A and
B: coverage 2/5, ratio 2/5, no taxonomy-only classes. -/
def smallTriples : List Triple :=
  [⟨"P1", rdfsDomain, "A"⟩, ⟨"P2", rdfsDomain, "B"⟩]

section Lemmas

theorem mem_dedupAdd {acc : List String} {x y : String} :
    y ∈ dedupAdd acc x ↔ y ∈ acc ∨ y = x := by
  unfold dedupAdd
  split
  · rename_i hx
    constructor
    · exact fun h => Or.inl h
    · rintro (h | rfl)
      · exact h
      · exact hx
  · simp

theorem nodup_dedupAdd {acc : List String} {x : String} (h : acc.Nodup) :
    (dedupAdd acc x).Nodup := by
  unfold dedupAdd
  split
  · exact h
  · rename_i hx
    simpa [List.nodup_append] using ⟨h, fun hy => hx hy⟩

theorem mem_dedupUnion {a b : List String} {y : String} :
    y ∈ dedupUnion a b ↔ y ∈ a ∨ y ∈ b := by
  induction b generalizing a with
  | nil => simp [dedupUnion]
  | cons x xs ih =>
    show y ∈ dedupUnion (dedupAdd a x) xs ↔ _
    rw [ih, mem_dedupAdd]
    simp only [List.mem_cons]
    tauto

theorem nodup_dedupUnion {a b : List String} (h : a.Nodup) :
    (dedupUnion a b).Nodup := by
  induction b generalizing a with
  | nil => exact h
  | cons x xs ih => exact ih (nodup_dedupAdd h)

theorem dedupList_eq (l : List String) : dedupList l = dedupUnion [] l := rfl

theorem mem_dedupList {l : List String} {y : String} :
    y ∈ dedupList l ↔ y ∈ l := by
  rw [dedupList_eq, mem_dedupUnion]
  simp

theorem nodup_dedupList {l : List String} : (dedupList l).Nodup :=
  nodup_dedupUnion List.nodup_nil

/-- Membership in the inner collect fold of `classes_in_domain`-style
loops. -/
theorem mem_collect_fold {t : List Triple} {P : Triple → Prop}
    [DecidablePred P] {acc : List String} {y : String} :
    (y ∈ t.foldl (fun a tr => if P tr then dedupAdd a tr.obj else a) acc) ↔
      y ∈ acc ∨ ∃ tr ∈ t, P tr ∧ tr.obj = y := by
  induction t generalizing acc with
  | nil => simp
  | cons tr rest ih =>
    simp only [List.foldl_cons, List.mem_cons]
    by_cases h : P tr
    · rw [if_pos h, ih, mem_dedupAdd]
      constructor
      · rintro ((hy | rfl) | ⟨tr2, h2, h3, h4⟩)
        · exact Or.inl hy
        · exact Or.inr ⟨tr, Or.inl rfl, h, rfl⟩
        · exact Or.inr ⟨tr2, Or.inr h2, h3, h4⟩
      · rintro (hy | ⟨tr2, (rfl | h2), h3, h4⟩)
        · exact Or.inl (Or.inl hy)
        · exact Or.inl (Or.inr h4.symm)
        · exact Or.inr ⟨tr2, h2, h3, h4⟩
    · rw [if_neg h, ih]
      constructor
      · rintro (hy | ⟨tr2, h2, h3, h4⟩)
        · exact Or.inl hy
        · exact Or.inr ⟨tr2, Or.inr h2, h3, h4⟩
      · rintro (hy | ⟨tr2, (rfl | h2), h3, h4⟩)
        · exact Or.inl hy
        · exact absurd h3 h
        · exact Or.inr ⟨tr2, h2, h3, h4⟩

theorem nodup_collect_fold {t : List Triple} {P : Triple → Prop}
    [DecidablePred P] {acc : List String} (h : acc.Nodup) :
    (t.foldl (fun a tr => if P tr then dedupAdd a tr.obj else a) acc).Nodup := by
  induction t generalizing acc with
  | nil => exact h
  | cons tr rest ih =>
    simp only [List.foldl_cons]
    by_cases hp : P tr
    · rw [if_pos hp]; exact ih (nodup_dedupAdd h)
    · rw [if_neg hp]; exact ih h

/-- Membership through an outer fold whose step satisfies a membership
description. -/
theorem mem_outer_fold {ops : List String} {g : String → List String → List String}
    {Q : String → String → Prop}
    (hg : ∀ p acc y, y ∈ g p acc ↔ y ∈ acc ∨ Q p y) (acc : List String)
    (y : String) :
    (y ∈ ops.foldl (fun a p => g p a) acc) ↔ y ∈ acc ∨ ∃ p ∈ ops, Q p y := by
  induction ops generalizing acc with
  | nil => simp
  | cons p rest ih =>
    simp only [List.foldl_cons, List.mem_cons]
    rw [ih, hg]
    constructor
    · rintro ((hy | hq) | ⟨p2, h2, h3⟩)
      · exact Or.inl hy
      · exact Or.inr ⟨p, Or.inl rfl, hq⟩
      · exact Or.inr ⟨p2, Or.inr h2, h3⟩
    · rintro (hy | ⟨p2, (rfl | h2), h3⟩)
      · exact Or.inl (Or.inl hy)
      · exact Or.inl (Or.inr h3)
      · exact Or.inr ⟨p2, h2, h3⟩

theorem nodup_outer_fold {ops : List String}
    {g : String → List String → List String}
    (hg : ∀ p acc, acc.Nodup → (g p acc).Nodup) {acc : List String}
    (h : acc.Nodup) : (ops.foldl (fun a p => g p a) acc).Nodup := by
  induction ops generalizing acc with
  | nil => exact h
  | cons p rest ih => exact ih (hg p acc h)

theorem mem_classesInDomain {t : List Triple} {cl ops : List String} {y : String} :
    y ∈ classesInDomain t cl ops ↔
      ∃ p ∈ ops, ∃ tr ∈ t,
        tr.subj = p ∧ tr.pred = rdfsDomain ∧ tr.obj ∈ cl ∧ tr.obj = y := by
  unfold classesInDomain
  rw [mem_outer_fold (fun p acc y => mem_collect_fold) [] y]
  simp only [List.not_mem_nil, false_or]
  constructor
  · rintro ⟨p, hp, tr, htr, ⟨h1, h2, h3⟩, h4⟩
    exact ⟨p, hp, tr, htr, h1, h2, h3, h4⟩
  · rintro ⟨p, hp, tr, htr, h1, h2, h3, h4⟩
    exact ⟨p, hp, tr, htr, ⟨h1, h2, h3⟩, h4⟩

theorem mem_classesInRange {t : List Triple} {cl ops : List String} {y : String} :
    y ∈ classesInRange t cl ops ↔
      ∃ p ∈ ops, ∃ tr ∈ t,
        tr.subj = p ∧ tr.pred = rdfsRange ∧ tr.obj ∈ cl ∧ tr.obj = y := by
  unfold classesInRange
  rw [mem_outer_fold (fun p acc y => mem_collect_fold) [] y]
  simp only [List.not_mem_nil, false_or]
  constructor
  · rintro ⟨p, hp, tr, htr, ⟨h1, h2, h3⟩, h4⟩
    exact ⟨p, hp, tr, htr, h1, h2, h3, h4⟩
  · rintro ⟨p, hp, tr, htr, h1, h2, h3, h4⟩
    exact ⟨p, hp, tr, htr, ⟨h1, h2, h3⟩, h4⟩

theorem nodup_classesInDomain {t : List Triple} {cl ops : List String} :
    (classesInDomain t cl ops).Nodup :=
  nodup_outer_fold (fun _ _ h => nodup_collect_fold h) List.nodup_nil

theorem nodup_classesInProps {t : List Triple} {cl ops : List String} :
    (classesInProps t cl ops).Nodup :=
  nodup_dedupUnion nodup_classesInDomain

theorem mem_classesInProps {t : List Triple} {cl ops : List String} {y : String} :
    y ∈ classesInProps t cl ops ↔ y ∈ cl ∧ coveredConceptSpec t ops y := by
  unfold classesInProps
  rw [mem_dedupUnion, mem_classesInDomain, mem_classesInRange]
  constructor
  · rintro (⟨p, hp, tr, htr, h1, h2, h3, h4⟩ | ⟨p, hp, tr, htr, h1, h2, h3, h4⟩)
    · subst h4
      obtain ⟨s, pr, o⟩ := tr
      simp only at h1 h2 h3 ⊢
      subst h1; subst h2
      exact ⟨h3, s, hp, Or.inl htr⟩
    · subst h4
      obtain ⟨s, pr, o⟩ := tr
      simp only at h1 h2 h3 ⊢
      subst h1; subst h2
      exact ⟨h3, s, hp, Or.inr htr⟩
  · rintro ⟨hcl, p, hp, hmem | hmem⟩
    · exact Or.inl ⟨p, hp, ⟨p, rdfsDomain, y⟩, hmem, rfl, rfl, hcl, rfl⟩
    · exact Or.inr ⟨p, hp, ⟨p, rdfsRange, y⟩, hmem, rfl, rfl, hcl, rfl⟩

/-- Duplicate-free lists with the same members have the same length. -/
theorem length_eq_of_nodup_mem_iff {l₁ l₂ : List String}
    (h1 : l₁.Nodup) (h2 : l₂.Nodup) (h : ∀ x, x ∈ l₁ ↔ x ∈ l₂) :
    l₁.length = l₂.length :=
  le_antisymm
    ((h1.subperm fun x hx => (h x).1 hx).length_le)
    ((h2.subperm fun x hx => (h x).2 hx).length_le)

/-- `len(classes_in_properties)` counts exactly the concepts the spec
calls covered, when the class set has no duplicates. -/
theorem classesInProps_length (t : List Triple) {cl : List String}
    (ops : List String) (h : cl.Nodup) :
    (classesInProps t cl ops).length =
      (cl.filter (fun c => decide (coveredConceptSpec t ops c))).length := by
  refine length_eq_of_nodup_mem_iff nodup_classesInProps (h.filter _) fun x => ?_
  rw [mem_classesInProps, List.mem_filter]
  simp

theorem foldl_id_of_no_effect {α β : Type} {l : List α} {f : β → α → β}
    (h : ∀ b a, a ∈ l → f b a = b) (acc : β) : l.foldl f acc = acc := by
  induction l generalizing acc with
  | nil => rfl
  | cons a rest ih =>
    rw [List.foldl_cons, h acc a (List.mem_cons_self a rest)]
    exact ih (fun b x hx => h b x (List.mem_cons_of_mem a hx)) acc

theorem adjSetDefault_not_mem {adj : Adj} {k : String}
    (h : ∀ e ∈ adj, e.1 ≠ k) : adjSetDefault adj k = adj ++ [(k, [])] := by
  induction adj with
  | nil => rfl
  | cons e rest ih =>
    show adjSetDefault (e :: rest) k = _
    unfold adjSetDefault
    rw [if_neg (h e (List.mem_cons_self e rest))]
    rw [ih (fun x hx => h x (List.mem_cons_of_mem e hx))]
    rfl

theorem setdefault_fold_fresh {cs : List String} {adj : Adj}
    (hnd : cs.Nodup) (h : ∀ c ∈ cs, ∀ e ∈ adj, e.1 ≠ c) :
    cs.foldl adjSetDefault adj = adj ++ cs.map (fun c => (c, [])) := by
  induction cs generalizing adj with
  | nil => simp
  | cons c rest ih =>
    rw [List.foldl_cons,
      adjSetDefault_not_mem (fun e he => h c (List.mem_cons_self c rest) e he)]
    rw [ih hnd.of_cons]
    · simp
    · intro x hx e he
      rcases List.mem_append.mp he with h1 | h1
      · exact h x (List.mem_cons_of_mem c hx) e h1
      · have : e = (c, []) := by simpa using h1
        subst this
        have : x ≠ c := by
          intro hxc
          exact (List.nodup_cons.mp hnd).1 (hxc ▸ hx)
        simpa using this.symm

theorem adjGet_map_nil {cs : List String} {c : String} :
    adjGet (cs.map (fun x => (x, []))) c = [] := by
  induction cs with
  | nil => rfl
  | cons x rest ih =>
    unfold adjGet at ih ⊢
    rw [List.map_cons, List.find?_cons]
    by_cases hx : x = c
    · simp [hx]
    · have : ((x, ([] : List String)).1 == c) = false := by
        simpa using hx
      rw [this]
      exact ih

/-- When there are no subtype edges between declared classes and no
object property bridges a domain class to a range class, the adjacency
map is exactly the isolated-node map. -/
theorem buildAdjacency_no_edges {t : List Triple} {classes ops : List String}
    (hnd : classes.Nodup)
    (hsub : ∀ tr ∈ t, tr.pred = rdfsSubClassOf →
      ¬(tr.subj ∈ classes ∧ tr.obj ∈ classes))
    (hrng : ∀ p ∈ ops, propRanges t classes p = []) :
    buildAdjacency t classes ops = classes.map (fun c => (c, [])) := by
  have h1 : t.foldl
      (fun acc tr =>
        if tr.pred = rdfsSubClassOf ∧ tr.subj ∈ classes ∧ tr.obj ∈ classes then
          adjAdd (adjAdd acc tr.subj tr.obj) tr.obj tr.subj
        else acc) ([] : Adj) = [] := by
    refine foldl_id_of_no_effect (fun b tr htr => ?_) _
    rw [if_neg]
    rintro ⟨hp, hs, ho⟩
    exact hsub tr htr hp ⟨hs, ho⟩
  have h2 : ops.foldl
      (fun acc p =>
        let doms := propDomains t classes p
        let rngs := propRanges t classes p
        doms.foldl
          (fun accd d => rngs.foldl (fun accr r => adjAdd (adjAdd accr d r) r d) accd)
          acc) ([] : Adj) = [] := by
    refine foldl_id_of_no_effect (fun b p hp => ?_) _
    show (propDomains t classes p).foldl
      (fun accd d =>
        (propRanges t classes p).foldl
          (fun accr r => adjAdd (adjAdd accr d r) r d) accd) b = b
    rw [hrng p hp]
    exact foldl_id_of_no_effect (fun b2 a2 _ => rfl) b
  simp only [buildAdjacency, h1, h2]
  rw [setdefault_fold_fresh hnd (fun c _ e he => absurd he (List.not_mem_nil e))]
  rfl

/-- On an edgeless adjacency, every class is an orphan. -/
theorem orphansOf_isolated {adj : Adj} (hadj : ∀ c, adjGet adj c = [])
    (classes : List String) : orphansOf adj classes = classes := by
  unfold orphansOf
  exact List.filter_eq_self.mpr (fun c _ => by simp [hadj c])

/-- When every class is an orphan, no class is taxonomy-only. -/
theorem taxonomyOnlyOf_all_orphans {cip classes : List String} :
    taxonomyOnlyOf cip classes classes = [] := by
  unfold taxonomyOnlyOf
  exact List.filter_eq_nil.mpr (fun c hc => by simp [hc])

theorem bfsStep_empty_queue {adj : Adj} {k : Nat} {v comp : List String} :
    bfsStep adj k v [] comp = (v, comp) := by
  cases k <;> rfl

theorem bfsStep_isolated {adj : Adj} (hadj : ∀ c, adjGet adj c = [])
    {fuel : Nat} {visited comp : List String} {node : String}
    (hn : node ∉ visited) :
    bfsStep adj (fuel + 1) visited [node] comp =
      (node :: visited, comp ++ [node]) := by
  show (if node ∈ visited then bfsStep adj fuel visited [] comp
    else
      let visited2 := node :: visited
      let comp2 := comp ++ [node]
      let nbrs := (adjGet adj node).filter (fun nb => decide (nb ∉ visited2))
      bfsStep adj fuel visited2 ([] ++ nbrs) comp2) = _
  rw [if_neg hn]
  simp only [hadj node, List.filter_nil, List.nil_append]
  exact bfsStep_empty_queue

theorem outerStep_isolated {adj : Adj} (hadj : ∀ c, adjGet adj c = [])
    {F : Nat} (hF : F ≠ 0) {st : List String × List (List String)}
    {node : String} (hn : node ∉ st.1) :
    outerStep adj F st node = (node :: st.1, st.2 ++ [[node]]) := by
  obtain ⟨f, rfl⟩ := Nat.exists_eq_succ_of_ne_zero hF
  unfold outerStep
  rw [if_neg hn]
  show ((bfsStep adj (f + 1) st.1 [node] []).1,
    st.2 ++ [(bfsStep adj (f + 1) st.1 [node] []).2]) = _
  rw [bfsStep_isolated hadj hn]
  simp

theorem comp_fold_isolated {adj : Adj} (hadj : ∀ c, adjGet adj c = [])
    {F : Nat} (hF : F ≠ 0) (cs : List String)
    (st : List String × List (List String))
    (hnd : cs.Nodup) (hdisj : ∀ c ∈ cs, c ∉ st.1) :
    cs.foldl (outerStep adj F) st =
      (cs.reverse ++ st.1, st.2 ++ cs.map (fun c => [c])) := by
  induction cs generalizing st with
  | nil => simp
  | cons c rest ih =>
    rw [List.foldl_cons,
      outerStep_isolated hadj hF (hdisj c (List.mem_cons_self c rest))]
    rw [ih (c :: st.1, st.2 ++ [[c]]) hnd.of_cons]
    · simp
    · intro x hx
      simp only [List.mem_cons, not_or]
      exact ⟨fun hxc => (List.nodup_cons.mp hnd).1 (hxc ▸ hx),
        hdisj x (List.mem_cons_of_mem c hx)⟩

/-- On an adjacency with no edges, every class forms its own component. -/
theorem componentsOf_isolated {adj : Adj} (hadj : ∀ c, adjGet adj c = [])
    (cs : List String) (hnd : cs.Nodup) :
    componentsOf adj cs = cs.map (fun c => [c]) := by
  unfold componentsOf
  rw [comp_fold_isolated hadj (F := bfsFuel adj cs) (by simp [bfsFuel]) cs
    ([], []) hnd (fun c _ => List.not_mem_nil c)]
  simp

theorem rheNum_nonneg {n d : ℤ} (hn : 0 ≤ n) (hd : 0 < d) :
    0 ≤ rheNum n d := by
  have hf : 0 ≤ n.fdiv d := by
    rw [Int.fdiv_eq_ediv n hd.le]
    exact Int.ediv_nonneg hn hd.le
  unfold rheNum
  dsimp only
  split
  · exact hf
  · split
    · omega
    · split
      · exact hf
      · omega

theorem rheNum_le {n d k : ℤ} (hd : 0 < d) (hnk : n ≤ k * d) :
    rheNum n d ≤ k := by
  have hfe : n.fdiv d = n / d := Int.fdiv_eq_ediv n hd.le
  have key : d * (n / d) + n % d = n := Int.ediv_add_emod n d
  have hr0 : 0 ≤ n % d := Int.emod_nonneg n (ne_of_gt hd)
  have hfk : n / d ≤ k := by
    have h1 : d * (n / d) ≤ d * k := by nlinarith
    exact le_of_mul_le_mul_left h1 hd
  have hfk1 : ¬(2 * (n - n.fdiv d * d) < d) → n / d + 1 ≤ k := by
    intro hbig
    rw [hfe] at hbig
    have hrpos : 0 < n % d := by nlinarith
    have h2 : d * (n / d) < d * k := by nlinarith
    have := lt_of_mul_lt_mul_left h2 hd.le
    omega
  unfold rheNum
  dsimp only
  split
  · rw [hfe]; exact hfk
  · rename_i hbig
    rw [hfe]
    split
    · exact hfk1 hbig
    · split
      · exact hfk
      · exact hfk1 hbig

/-- Python `round(x, 3)` of a value in `[0, 1]` stays in `[0, 1]`. -/
theorem round3_bounds {q : ℚ} (h0 : 0 ≤ q) (h1 : q ≤ 1) :
    0 ≤ round3 q ∧ round3 q ≤ 1 := by
  have hdpos : (0 : ℤ) < (q.den : ℤ) := by exact_mod_cast q.pos
  have hnum0 : 0 ≤ q.num := Rat.num_nonneg.mpr h0
  have hnumden : q.num ≤ (q.den : ℤ) := by
    have := Rat.le_def.mp h1
    simpa using this
  have hlo : 0 ≤ rheNum (q.num * 1000) q.den :=
    rheNum_nonneg (by positivity) hdpos
  have hhi : rheNum (q.num * 1000) q.den ≤ 1000 :=
    rheNum_le hdpos (by nlinarith)
  unfold round3
  rw [Rat.mkRat_eq_div]
  constructor
  · positivity
  · rw [div_le_one (by norm_num)]
    exact_mod_cast hhi

theorem cIdent_inj : Function.Injective cIdent := by
  intro i j h
  have h2 := congrArg (fun s => s.data.length) h
  simpa [cIdent] using h2

theorem bigClasses_nodup : bigClasses.Nodup :=
  List.Nodup.map cIdent_inj (List.nodup_range _)

theorem mem_cip_big {y : String} :
    y ∈ classesInProps bigTriples bigClasses bigProps ↔
      y ∈ (List.range 161).map cIdent := by
  rw [mem_classesInProps]
  constructor
  · rintro ⟨hcl, p, hp, hmem | hmem⟩
    · obtain ⟨i, hi, heq⟩ := List.mem_map.mp hmem
      exact List.mem_map.mpr ⟨i, hi, congrArg Triple.obj heq⟩
    · obtain ⟨i, hi, heq⟩ := List.mem_map.mp hmem
      have hpr : rdfsDomain = rdfsRange := congrArg Triple.pred heq
      exact absurd hpr (by decide)
  · intro hy
    obtain ⟨i, hi, rfl⟩ := List.mem_map.mp hy
    have hi161 : i < 161 := List.mem_range.mp hi
    refine ⟨List.mem_map.mpr ⟨i, List.mem_range.mpr (by omega), rfl⟩,
      pIdent i, List.mem_map.mpr ⟨i, hi, rfl⟩,
      Or.inl (List.mem_map.mpr ⟨i, hi, rfl⟩)⟩

theorem cip_big_length :
    (classesInProps bigTriples bigClasses bigProps).length = 161 := by
  rw [length_eq_of_nodup_mem_iff nodup_classesInProps
    (List.Nodup.map cIdent_inj (List.nodup_range _)) (fun x => mem_cip_big)]
  simp

theorem bigClasses_length : bigClasses.length = 403 := by
  simp [bigClasses]

theorem big_no_subclass :
    ∀ tr ∈ bigTriples, tr.pred = rdfsSubClassOf →
      ¬(tr.subj ∈ bigClasses ∧ tr.obj ∈ bigClasses) := by
  intro tr htr hp
  obtain ⟨i, hi, rfl⟩ := List.mem_map.mp htr
  have hp2 : rdfsDomain = rdfsSubClassOf := hp
  exact absurd hp2 (by decide)

theorem big_no_ranges :
    ∀ p ∈ bigProps, propRanges bigTriples bigClasses p = [] := by
  intro p hp
  unfold propRanges
  have hfil : bigTriples.filter
      (fun tr => decide (tr.subj = p ∧ tr.pred = rdfsRange ∧
        tr.obj ∈ bigClasses)) = [] := by
    rw [List.filter_eq_nil_iff]
    intro tr htr
    obtain ⟨i, hi, rfl⟩ := List.mem_map.mp htr
    simp only [decide_eq_true_eq, not_and]
    intro _ hpr
    exact absurd hpr (by decide)
  rw [hfil]
  rfl

theorem big_coverage_raw :
    propertyCoverageRaw bigTriples bigClasses bigProps = mkRat 161 403 := by
  unfold propertyCoverageRaw
  rw [cip_big_length, bigClasses_length]
  norm_num

theorem big_ratio_raw :
    propClassRatioRaw bigClasses bigProps = mkRat 161 403 := by
  unfold propClassRatioRaw
  rw [bigClasses_length]
  have : bigProps.length = 161 := by simp [bigProps]
  rw [this]
  norm_num

theorem big_tax_nil :
    taxonomyOnlyOf (classesInProps bigTriples bigClasses bigProps)
      (orphansOf (buildAdjacency bigTriples bigClasses bigProps) bigClasses)
      bigClasses = [] := by
  have hadjmap := buildAdjacency_no_edges bigClasses_nodup big_no_subclass
    big_no_ranges
  have horph : orphansOf (buildAdjacency bigTriples bigClasses bigProps)
      bigClasses = bigClasses := by
    rw [hadjmap]
    exact orphansOf_isolated (fun c => adjGet_map_nil) _
  rw [horph]
  exact taxonomyOnlyOf_all_orphans

end Lemmas

/-- C1: for every graph (with the class set duplicate-free, as a Python
set is), the analyzer's sparsity verdict is exactly
`property_coverage < 0.40 OR density_ratio < 0.40 OR
taxonomy_only_count / concept_count > 0.65`, and is `false` when the
graph has zero concept entities. -/
theorem c1_sparsity_verdict (t : List Triple)
    (classes objProps dataProps individuals : List String)
    (h : classes.Nodup) :
    (connectivityMetrics t classes objProps dataProps individuals).1.is_sparse =
      if classes = [] then false
      else
        decide (propertyCoverageSpec t classes objProps < minPropertyCoverage) ||
        decide (densityRatioSpec classes objProps < minPropClassRatio) ||
        decide (taxonomyOnlyRatioSpec t classes objProps > maxTaxonomyOnlyRatio) := by
  by_cases hc : classes = []
  · subst hc
    simp [connectivityMetrics, connMetricsOf]
  · have hlen : classes.length ≠ 0 := fun h0 => hc (List.length_eq_zero.mp h0)
    have hcov : propertyCoverageRaw t classes objProps =
        propertyCoverageSpec t classes objProps := by
      unfold propertyCoverageRaw propertyCoverageSpec
      rw [if_neg hlen, classesInProps_length t objProps h]
    have hden : propClassRatioRaw classes objProps =
        densityRatioSpec classes objProps := by
      unfold propClassRatioRaw densityRatioSpec
      rw [if_neg hlen]
    have htax : mkRat (taxonomyOnlyOf (classesInProps t classes objProps)
        (orphansOf (buildAdjacency t classes objProps) classes) classes).length
        classes.length = taxonomyOnlyRatioSpec t classes objProps := rfl
    simp only [connectivityMetrics, connMetricsOf]
    rw [if_neg hlen, if_neg hc, hcov, hden, htax]

/-- Witness for C1 at the concrete five-concept scenario. -/
theorem c1_sparsity_verdict_witness :
    scenarioClasses.Nodup ∧
    (connectivityMetrics scenarioTriples scenarioClasses ["P"] [] []).1.is_sparse =
      (if scenarioClasses = [] then false
       else
        decide (propertyCoverageSpec scenarioTriples scenarioClasses ["P"] <
          minPropertyCoverage) ||
        decide (densityRatioSpec scenarioClasses ["P"] < minPropClassRatio) ||
        decide (taxonomyOnlyRatioSpec scenarioTriples scenarioClasses ["P"] >
          maxTaxonomyOnlyRatio)) :=
  ⟨by decide,
   c1_sparsity_verdict scenarioTriples scenarioClasses ["P"] [] [] (by decide)⟩

/-- C4 (amended): the returned `property_coverage` metric lies in
`[0, 1]`, and `is_sparse` is a pure function of the concept count and the
three unrounded sub-threshold values; agreement of the rounded metric
values alone does not determine it. -/
theorem c4_coverage_bounds_sparsity_pure (t : List Triple)
    (classes objProps dataProps individuals : List String) :
    0 ≤ (connectivityMetrics t classes objProps dataProps individuals).1.property_coverage ∧
    (connectivityMetrics t classes objProps dataProps individuals).1.property_coverage ≤ 1 ∧
    (connectivityMetrics t classes objProps dataProps individuals).1.is_sparse =
      sparsityVerdict classes.length (propertyCoverageRaw t classes objProps)
        (propClassRatioRaw classes objProps)
        (mkRat (taxonomyOnlyCount t classes objProps) classes.length) := by
  have hcov : 0 ≤ propertyCoverageRaw t classes objProps ∧
      propertyCoverageRaw t classes objProps ≤ 1 := by
    unfold propertyCoverageRaw
    split
    · norm_num
    · rename_i hlen
      have hsubset : classesInProps t classes objProps ⊆ classes :=
        fun y hy => (mem_classesInProps.mp hy).1
      have hle : (classesInProps t classes objProps).length ≤ classes.length :=
        (nodup_classesInProps.subperm hsubset).length_le
      have hpos : (0 : ℚ) < (classes.length : ℚ) := by
        exact_mod_cast Nat.pos_of_ne_zero hlen
      rw [Rat.mkRat_eq_div]
      constructor
      · positivity
      · rw [div_le_one hpos]
        exact_mod_cast hle
  refine ⟨?_, ?_, rfl⟩
  · exact (round3_bounds hcov.1 hcov.2).1
  · exact (round3_bounds hcov.1 hcov.2).2

/-- Counterexample to C4 as stated: a 403-concept graph (161 domain-only
properties covering 161 concepts) and a 5-concept graph (2 domain-only
properties covering 2 concepts) return identical rounded
`property_coverage` (0.400), identical rounded `property_to_class_ratio`
(0.400), identical taxonomy-only counts and ratios (0), yet the first is
sparse (161/403 < 0.40 unrounded) and the second is not. -/
theorem c4_rounded_metrics_insufficient :
    ((connectivityMetrics bigTriples bigClasses bigProps [] []).1.property_coverage =
      (connectivityMetrics smallTriples scenarioClasses ["P1", "P2"] [] []).1.property_coverage) ∧
    ((connectivityMetrics bigTriples bigClasses bigProps [] []).1.property_to_class_ratio =
      (connectivityMetrics smallTriples scenarioClasses ["P1", "P2"] [] []).1.property_to_class_ratio) ∧
    ((connectivityMetrics bigTriples bigClasses bigProps [] []).1.taxonomy_only_classes =
      (connectivityMetrics smallTriples scenarioClasses ["P1", "P2"] [] []).1.taxonomy_only_classes) ∧
    (taxonomyOnlyRatioSpec bigTriples bigClasses bigProps =
      taxonomyOnlyRatioSpec smallTriples scenarioClasses ["P1", "P2"]) ∧
    (connectivityMetrics bigTriples bigClasses bigProps [] []).1.is_sparse = true ∧
    (connectivityMetrics smallTriples scenarioClasses ["P1", "P2"] [] []).1.is_sparse = false := by
  have htaxcount : taxonomyOnlyCount bigTriples bigClasses bigProps = 0 := by
    unfold taxonomyOnlyCount
    rw [big_tax_nil]
    rfl
  have hbig_cov : (connectivityMetrics bigTriples bigClasses bigProps [] []).1.property_coverage =
      mkRat 2 5 := by
    simp only [connectivityMetrics, connMetricsOf]
    rw [big_coverage_raw]
    decide
  have hbig_ratio : (connectivityMetrics bigTriples bigClasses bigProps [] []).1.property_to_class_ratio =
      mkRat 2 5 := by
    simp only [connectivityMetrics, connMetricsOf]
    rw [big_ratio_raw]
    decide
  have hbig_tax : (connectivityMetrics bigTriples bigClasses bigProps [] []).1.taxonomy_only_classes =
      0 := by
    simp only [connectivityMetrics, connMetricsOf]
    rw [big_tax_nil]
    rfl
  have hbig_sparse : (connectivityMetrics bigTriples bigClasses bigProps [] []).1.is_sparse =
      true := by
    simp only [connectivityMetrics, connMetricsOf]
    rw [bigClasses_length, big_coverage_raw]
    rw [if_neg (by decide : ¬(403 = 0))]
    have h1 : decide (mkRat 161 403 < minPropertyCoverage) = true := by decide
    simp [h1]
  have hbigspec : taxonomyOnlyRatioSpec bigTriples bigClasses bigProps = 0 := by
    unfold taxonomyOnlyRatioSpec
    rw [htaxcount]
    simp
  have hsmspec : taxonomyOnlyRatioSpec smallTriples scenarioClasses ["P1", "P2"] = 0 := by
    decide
  refine ⟨?_, ?_, ?_, ?_, hbig_sparse, by decide⟩
  · rw [hbig_cov]; decide
  · rw [hbig_ratio]; decide
  · rw [hbig_tax]; decide
  · rw [hbigspec, hsmspec]

/-- C5 (amended to N ≥ 1): a graph of N ≥ 1 concepts with no subtype
edges between declared concepts and zero relational properties yields
`component_count = N`, `property_coverage = 0.0` and `is_sparse = true`. -/
theorem c5_fully_disconnected (t : List Triple)
    (classes dataProps individuals : List String)
    (hnd : classes.Nodup) (hne : classes ≠ [])
    (hsub : ∀ tr ∈ t, tr.pred = rdfsSubClassOf →
      ¬(tr.subj ∈ classes ∧ tr.obj ∈ classes)) :
    (connectivityMetrics t classes [] dataProps individuals).1.connected_components =
      classes.length ∧
    (connectivityMetrics t classes [] dataProps individuals).1.property_coverage = 0 ∧
    (connectivityMetrics t classes [] dataProps individuals).1.is_sparse = true := by
  have hlen : classes.length ≠ 0 := fun h0 => hne (List.length_eq_zero.mp h0)
  have hadj : ∀ c, adjGet (buildAdjacency t classes []) c = [] := by
    intro c
    rw [buildAdjacency_no_edges hnd hsub (fun p hp => absurd hp (List.not_mem_nil p))]
    exact adjGet_map_nil
  have hcip : classesInProps t classes [] = [] := rfl
  refine ⟨?_, ?_, ?_⟩
  · simp only [connectivityMetrics, connMetricsOf]
    rw [componentsOf_isolated hadj classes hnd]
    simp
  · simp only [connectivityMetrics, connMetricsOf]
    unfold propertyCoverageRaw
    rw [if_neg hlen, hcip]
    simp [round3, rheNum]
  · simp only [connectivityMetrics, connMetricsOf]
    rw [if_neg hlen]
    have hr : propClassRatioRaw classes [] = 0 := by
      unfold propClassRatioRaw
      rw [if_neg hlen]
      simp
    rw [hr]
    have hlt : decide ((0 : ℚ) < minPropClassRatio) = true := by decide
    simp [hlt]

/-- Counterexample to C5 as stated: at N = 0 (the empty graph) the
analyzer returns `is_sparse = false`, not `true`. -/
theorem c5_zero_concepts_not_sparse :
    (connectivityMetrics [] [] [] [] []).1.connected_components = 0 ∧
    (connectivityMetrics [] [] [] [] []).1.property_coverage = 0 ∧
    (connectivityMetrics [] [] [] [] []).1.is_sparse = false := by decide

/-- Witness for C5 on a concrete two-concept edgeless graph. -/
theorem c5_fully_disconnected_witness :
    (["A", "B"] : List String).Nodup ∧
    (connectivityMetrics [] ["A", "B"] [] [] []).1.connected_components = 2 ∧
    (connectivityMetrics [] ["A", "B"] [] [] []).1.property_coverage = 0 ∧
    (connectivityMetrics [] ["A", "B"] [] [] []).1.is_sparse = true := by
  refine ⟨by decide, ?_⟩
  have h := c5_fully_disconnected [] ["A", "B"] [] [] (by decide) (by decide)
    (fun tr htr => absurd htr (List.not_mem_nil tr))
  exact h

/-- Membership in a classifier set: exactly the subjects with a matching
declared-type triple. -/
theorem mem_typedSubjects {t : List Triple} {ty y : String} :
    y ∈ typedSubjects t ty ↔
      ∃ tr ∈ t, tr.pred = rdfType ∧ tr.obj = ty ∧ tr.subj = y := by
  unfold typedSubjects
  rw [mem_dedupList]
  simp only [List.mem_map, List.mem_filter, decide_eq_true_eq]
  constructor
  · rintro ⟨tr, ⟨htr, h1, h2⟩, h3⟩
    exact ⟨tr, htr, h1, h2, h3⟩
  · rintro ⟨tr, htr, h1, h2, h3⟩
    exact ⟨tr, ⟨htr, h1, h2⟩, h3⟩

/-- Two classifier sets for distinct recognized types are disjoint when
no subject carries two distinct recognized-type triples. -/
theorem typedSubjects_disjoint {t : List Triple}
    (huniq : ∀ tr1 ∈ t, ∀ tr2 ∈ t, tr1.pred = rdfType → tr2.pred = rdfType →
      tr1.subj = tr2.subj → tr1.obj ∈ recognizedTypes →
      tr2.obj ∈ recognizedTypes → tr1.obj = tr2.obj)
    {ty1 ty2 : String} (h1 : ty1 ∈ recognizedTypes) (h2 : ty2 ∈ recognizedTypes)
    (hne : ty1 ≠ ty2) :
    ∀ x ∈ typedSubjects t ty1, x ∉ typedSubjects t ty2 := by
  intro x hx1 hx2
  obtain ⟨tr1, htr1, hp1, ho1, hs1⟩ := mem_typedSubjects.mp hx1
  obtain ⟨tr2, htr2, hp2, ho2, hs2⟩ := mem_typedSubjects.mp hx2
  apply hne
  rw [← ho1, ← ho2]
  exact huniq tr1 htr1 tr2 htr2 hp1 hp2 (by rw [hs1, hs2]) (ho1 ▸ h1) (ho2 ▸ h2)

/-- C2: at the concrete five-concept scenario the analyzer reports 2
components, 1 orphan, property_coverage exactly 0.40 and is_sparse true;
the sparsity comes from the density-ratio check (0.2 < 0.40), while the
strict coverage check 0.40 < 0.40 does not hold. -/
theorem c2_concrete_scenario :
    (connectivityMetrics scenarioTriples scenarioClasses ["P"] [] []).1.connected_components = 2 ∧
    (connectivityMetrics scenarioTriples scenarioClasses ["P"] [] []).1.orphan_classes = 1 ∧
    (connectivityMetrics scenarioTriples scenarioClasses ["P"] [] []).1.property_coverage = mkRat 2 5 ∧
    (connectivityMetrics scenarioTriples scenarioClasses ["P"] [] []).1.is_sparse = true ∧
    propClassRatioRaw scenarioClasses ["P"] < minPropClassRatio ∧
    ¬(propertyCoverageRaw scenarioTriples scenarioClasses ["P"] < minPropertyCoverage) := by
  decide

/-- Counterexample to C2 as stated: the coverage check does not fire at
the scenario — property_coverage equals the threshold exactly, so
`property_coverage < 0.40` is false even though is_sparse is true. -/
theorem c2_not_via_coverage_check :
    propertyCoverageRaw scenarioTriples scenarioClasses ["P"] = minPropertyCoverage ∧
    ¬(propertyCoverageRaw scenarioTriples scenarioClasses ["P"] < minPropertyCoverage) ∧
    (connectivityMetrics scenarioTriples scenarioClasses ["P"] [] []).1.is_sparse = true := by
  decide

/-- Counterexample to C3 as stated: a subject declared both `owl:Class`
and `owl:NamedIndividual` is classified into both sets, so the four sets
are not pairwise disjoint for every store. -/
theorem c3_conflicting_types_overlap :
    "X" ∈ typedSubjects conflictTriples owlClass ∧
    "X" ∈ typedSubjects conflictTriples owlNamedIndividual ∧
    ¬(∀ x ∈ typedSubjects conflictTriples owlClass,
      x ∉ typedSubjects conflictTriples owlNamedIndividual) := by
  decide

/-- C3 (amended): the four classifier sets are pairwise disjoint
whenever no subject declares two distinct recognized types. -/
theorem c3_pairwise_disjoint_when_types_unique (t : List Triple)
    (huniq : ∀ tr1 ∈ t, ∀ tr2 ∈ t, tr1.pred = rdfType → tr2.pred = rdfType →
      tr1.subj = tr2.subj → tr1.obj ∈ recognizedTypes →
      tr2.obj ∈ recognizedTypes → tr1.obj = tr2.obj) :
    (∀ x ∈ typedSubjects t owlClass, x ∉ typedSubjects t owlObjectProperty) ∧
    (∀ x ∈ typedSubjects t owlClass, x ∉ typedSubjects t owlDatatypeProperty) ∧
    (∀ x ∈ typedSubjects t owlClass, x ∉ typedSubjects t owlNamedIndividual) ∧
    (∀ x ∈ typedSubjects t owlObjectProperty, x ∉ typedSubjects t owlDatatypeProperty) ∧
    (∀ x ∈ typedSubjects t owlObjectProperty, x ∉ typedSubjects t owlNamedIndividual) ∧
    (∀ x ∈ typedSubjects t owlDatatypeProperty, x ∉ typedSubjects t owlNamedIndividual) :=
  ⟨typedSubjects_disjoint huniq (by decide) (by decide) (by decide),
   typedSubjects_disjoint huniq (by decide) (by decide) (by decide),
   typedSubjects_disjoint huniq (by decide) (by decide) (by decide),
   typedSubjects_disjoint huniq (by decide) (by decide) (by decide),
   typedSubjects_disjoint huniq (by decide) (by decide) (by decide),
   typedSubjects_disjoint huniq (by decide) (by decide) (by decide)⟩

/-- Witness for C3 on a store whose four subjects have one type each. -/
theorem c3_pairwise_disjoint_when_types_unique_witness :
    (∀ tr1 ∈ cleanTriples, ∀ tr2 ∈ cleanTriples, tr1.pred = rdfType →
      tr2.pred = rdfType → tr1.subj = tr2.subj → tr1.obj ∈ recognizedTypes →
      tr2.obj ∈ recognizedTypes → tr1.obj = tr2.obj) ∧
    (∀ x ∈ typedSubjects cleanTriples owlClass,
      x ∉ typedSubjects cleanTriples owlObjectProperty) :=
  ⟨by decide,
   (c3_pairwise_disjoint_when_types_unique cleanTriples (by decide)).1⟩

/-- C6: with every division routed through a checked division that fails
on a zero denominator, the analyzer still always returns: the source's
own `n_classes` guards make the failing branch unreachable, and the
checked run returns exactly the `(metrics, report)` pair for every input
shape, including zero concepts, zero properties, and fully disconnected
graphs. -/
theorem c6_never_fails (t : List Triple)
    (classes objProps dataProps individuals : List String) :
    connectivityMetricsChecked t classes objProps dataProps individuals =
      some (connectivityMetrics t classes objProps dataProps individuals) := by
  by_cases h : classes.length = 0
  · simp [connectivityMetricsChecked, connectivityMetrics, connMetricsOf,
      connReportOf, h, checkedDiv, propertyCoverageRaw, propClassRatioRaw,
      avgDegreeRaw]
  · have h2 : ((classes.length : ℚ)) ≠ 0 := Nat.cast_ne_zero.mpr h
    simp [connectivityMetricsChecked, connectivityMetrics, connMetricsOf,
      connReportOf, h, h2, checkedDiv, propertyCoverageRaw, propClassRatioRaw,
      avgDegreeRaw]

/-- Both branches of the result assembly attach stats, metrics and the
report. -/
theorem assembleResult_fields {stats : Stats} {conn : ConnMetrics × String}
    {errors : List String} :
    (assembleResult stats conn errors).connectivity.isSome = true ∧
    (assembleResult stats conn errors).connectivity_report.isSome = true ∧
    (assembleResult stats conn errors).stats.isSome = true := by
  unfold assembleResult
  split <;> exact ⟨rfl, rfl, rfl⟩

/-- On the object-top-level model, the validator attaches connectivity
metrics, the connectivity report and the entity stats exactly when the
document loads and parses, independently of structural-rule violations;
on any load or parse failure the result carries none of them. -/
theorem validateOntology_attachment (path : String)
    (doc : OntologyDoc) (minClasses minProperties minIndividuals : Nat) :
    (validateOntology path doc minClasses minProperties minIndividuals).connectivity.isSome =
      docLoads doc ∧
    (validateOntology path doc minClasses minProperties minIndividuals).connectivity_report.isSome =
      docLoads doc ∧
    (validateOntology path doc minClasses minProperties minIndividuals).stats.isSome =
      docLoads doc := by
  match doc with
  | .fileMissing => exact ⟨rfl, rfl, rfl⟩
  | .invalidJson exc => exact ⟨rfl, rfl, rfl⟩
  | .jsonValue hasContext graphIsArray rdfParse =>
    match hasContext, graphIsArray, rdfParse with
    | false, none, r => exact ⟨rfl, rfl, rfl⟩
    | false, some false, r => exact ⟨rfl, rfl, rfl⟩
    | false, some true, r => exact ⟨rfl, rfl, rfl⟩
    | true, none, r => exact ⟨rfl, rfl, rfl⟩
    | true, some false, r => exact ⟨rfl, rfl, rfl⟩
    | true, some true, .error exc => exact ⟨rfl, rfl, rfl⟩
    | true, some true, .ok triples =>
      exact ⟨assembleResult_fields.1, assembleResult_fields.2.1,
        assembleResult_fields.2.2⟩

/-- On an object top level, the full-model load predicate agrees with
the object-model one. -/
theorem docLoadsFull_obj (hc : Bool) (gia : Option Bool)
    (rdf : Except String (List Triple)) :
    docLoadsFull (.jsonTop (.obj hc gia) rdf) =
      docLoads (.jsonValue hc gia rdf) := by
  rcases rdf with e | t <;> rcases gia with _ | b <;> cases hc <;>
    first
      | rfl
      | (cases b <;> rfl)

/-- C7 (code bug): on a valid-JSON document whose top level is an array
or a string, `validate_ontology` raises `AttributeError` at the
`data.get("@graph")` check, and on a number, boolean or null top level
it raises `TypeError` at the `"@context" not in data` check — instead
of returning the missing-`@context`/`@graph` load failure its docstring
and check battery promise. Whenever the function does return a result,
that result carries entity stats, connectivity metrics and the
connectivity report exactly when the document loaded and parsed,
independently of structural violations, as the claim states. -/
theorem c7_crashes_on_non_object_document (path : String)
    (rdf : Except String (List Triple))
    (minClasses minProperties minIndividuals : Nat) :
    validateOntologyExc path (.jsonTop .nonObjIterable rdf)
      minClasses minProperties minIndividuals = .error .attributeError ∧
    validateOntologyExc path (.jsonTop .nonIterable rdf)
      minClasses minProperties minIndividuals = .error .typeError ∧
    (∀ (doc : OntologyDocFull) (r : ValidationResult),
      validateOntologyExc path doc minClasses minProperties minIndividuals =
        .ok r →
      r.connectivity.isSome = docLoadsFull doc ∧
      r.connectivity_report.isSome = docLoadsFull doc ∧
      r.stats.isSome = docLoadsFull doc) := by
  refine ⟨rfl, rfl, ?_⟩
  intro doc r hr
  cases doc with
  | fileMissing =>
    have hres : r = ⟨false, "File not found: " ++ path, 1, none, none, none⟩ := by
      injection hr with h
      exact h.symm
    rw [hres]
    exact ⟨rfl, rfl, rfl⟩
  | invalidJson e =>
    have hres : r = ⟨false, "Invalid JSON: " ++ e, 1, none, none, none⟩ := by
      injection hr with h
      exact h.symm
    rw [hres]
    exact ⟨rfl, rfl, rfl⟩
  | jsonTop top rdf2 =>
    cases top with
    | obj hc gia =>
      have hres : r = validateOntology path (.jsonValue hc gia rdf2)
          minClasses minProperties minIndividuals := by
        injection hr with h
        exact h.symm
      rw [hres, docLoadsFull_obj]
      exact validateOntology_attachment path (.jsonValue hc gia rdf2)
        minClasses minProperties minIndividuals
    | nonObjIterable => exact Except.noConfusion hr
    | nonIterable => exact Except.noConfusion hr

/-- Witness for C7's attachment clause at a concrete loading document. -/
theorem c7_crashes_on_non_object_document_witness :
    (validateOntology "doc.json" (.jsonValue true (some true) (.ok []))
        0 0 0).connectivity.isSome =
      docLoadsFull (.jsonTop (.obj true (some true)) (.ok [])) :=
  ((c7_crashes_on_non_object_document "doc.json" (.ok []) 0 0 0).2.2
    (.jsonTop (.obj true (some true)) (.ok []))
    (validateOntology "doc.json" (.jsonValue true (some true) (.ok [])) 0 0 0)
    rfl).1

set_option maxRecDepth 200000 in
/-- C8: the connectivity report is not a function of the graph alone.
The same triple store and the same class set, presented in two iteration
orders (as Python's hash-randomized set iteration does across
processes), produce byte-different reports: the two equal-sized
components swap their positions in the disconnected-components listing. -/
theorem c8_report_depends_on_set_iteration_order :
    List.Perm (["A", "B", "C", "D"] : List String) ["C", "D", "A", "B"] ∧
    (connectivityMetrics [⟨"A", rdfsSubClassOf, "B"⟩, ⟨"C", rdfsSubClassOf, "D"⟩]
        ["A", "B", "C", "D"] [] [] []).2 ≠
      (connectivityMetrics [⟨"A", rdfsSubClassOf, "B"⟩, ⟨"C", rdfsSubClassOf, "D"⟩]
        ["C", "D", "A", "B"] [] [] []).2 := by
  constructor
  · decide
  · decide

/-- C10: a valid-JSON document with `@context` but no `@graph` key fails
with exactly two errors — the missing-`@graph` error and the
`@graph`-must-be-an-array error — regardless of thresholds and of what
rdflib would have produced. -/
theorem c10_missing_graph_two_errors (path : String)
    (rdf : Except String (List Triple))
    (minClasses minProperties minIndividuals : Nat) :
    (validateOntology path (.jsonValue true none rdf) minClasses minProperties
      minIndividuals).error_count = 2 ∧
    (validateOntology path (.jsonValue true none rdf) minClasses minProperties
      minIndividuals).raw_output =
      "Missing @graph in JSON-LD root\n@graph must be a JSON array" ∧
    (validateOntology path (.jsonValue true none rdf) minClasses minProperties
      minIndividuals).success = false := by
  refine ⟨rfl, ?_, rfl⟩
  show String.intercalate "\n"
    ["Missing @graph in JSON-LD root", "@graph must be a JSON array"] = _
  rfl

/-- A domain assertion whose object is a declared class is relevant. -/
theorem relevant_of_domain {classes : List String} {tr : Triple}
    (hp : tr.pred = rdfsDomain) (ho : tr.obj ∈ classes) :
    relevantTriple classes tr = true := by
  rw [relevantTriple, decide_eq_true_eq]
  rintro (⟨hpr, hobj⟩ | ⟨hpr, hni⟩)
  · exact hobj ho
  · exact absurd (hp ▸ hpr) (by decide)

/-- A range assertion whose object is a declared class is relevant. -/
theorem relevant_of_range {classes : List String} {tr : Triple}
    (hp : tr.pred = rdfsRange) (ho : tr.obj ∈ classes) :
    relevantTriple classes tr = true := by
  rw [relevantTriple, decide_eq_true_eq]
  rintro (⟨hpr, hobj⟩ | ⟨hpr, hni⟩)
  · exact hobj ho
  · exact absurd (hp ▸ hpr) (by decide)

/-- A subtype assertion between declared classes is relevant. -/
theorem relevant_of_subclass {classes : List String} {tr : Triple}
    (hp : tr.pred = rdfsSubClassOf) (hs : tr.subj ∈ classes)
    (ho : tr.obj ∈ classes) : relevantTriple classes tr = true := by
  rw [relevantTriple, decide_eq_true_eq]
  rintro (⟨hpr, hobj⟩ | ⟨hpr, hni⟩)
  · rcases hpr with h | h
    · exact absurd (hp ▸ h) (by decide)
    · exact absurd (hp ▸ h) (by decide)
  · exact hni ⟨hs, ho⟩

theorem foldl_ext {α β : Type} {f g : β → α → β} (l : List α)
    (h : ∀ b a, a ∈ l → f b a = g b a) (acc : β) :
    l.foldl f acc = l.foldl g acc := by
  induction l generalizing acc with
  | nil => rfl
  | cons a rest ih =>
    rw [List.foldl_cons, List.foldl_cons, h acc a (List.mem_cons_self a rest)]
    exact ih (fun b x hx => h b x (List.mem_cons_of_mem a hx)) _

theorem foldl_filter_eq {α β : Type} {keep : α → Bool} {f : β → α → β}
    (h : ∀ b a, keep a = false → f b a = b) (l : List α) (acc : β) :
    (l.filter keep).foldl f acc = l.foldl f acc := by
  induction l generalizing acc with
  | nil => rfl
  | cons a rest ih =>
    rw [List.filter_cons]
    cases hk : keep a with
    | true =>
      rw [if_pos rfl, List.foldl_cons, List.foldl_cons]
      exact ih _
    | false =>
      rw [if_neg (fun hcon => by cases hcon), List.foldl_cons, h acc a hk]
      exact ih _

theorem filter_filter_imp {α : Type} {p q : α → Bool}
    (h : ∀ a, p a = true → q a = true) (l : List α) :
    (l.filter q).filter p = l.filter p := by
  induction l with
  | nil => rfl
  | cons a rest ih =>
    rw [List.filter_cons]
    cases hq : q a with
    | true =>
      rw [if_pos rfl, List.filter_cons, List.filter_cons, ih]
    | false =>
      have hpa : p a = false := by
        cases hpa : p a with
        | true => rw [h a hpa] at hq; cases hq
        | false => rfl
      rw [if_neg (fun hcon => by cases hcon), List.filter_cons,
        if_neg (fun hcon => by rw [hpa] at hcon; cases hcon), ih]

theorem classesInDomain_filter (t : List Triple) (classes ops : List String) :
    classesInDomain (t.filter (relevantTriple classes)) classes ops =
      classesInDomain t classes ops := by
  unfold classesInDomain
  refine foldl_ext ops (fun acc p _ => ?_) []
  refine foldl_filter_eq (fun b tr hk => ?_) t acc
  rw [if_neg]
  rintro ⟨h1, h2, h3⟩
  rw [relevant_of_domain h2 h3] at hk
  cases hk

theorem classesInRange_filter (t : List Triple) (classes ops : List String) :
    classesInRange (t.filter (relevantTriple classes)) classes ops =
      classesInRange t classes ops := by
  unfold classesInRange
  refine foldl_ext ops (fun acc p _ => ?_) []
  refine foldl_filter_eq (fun b tr hk => ?_) t acc
  rw [if_neg]
  rintro ⟨h1, h2, h3⟩
  rw [relevant_of_range h2 h3] at hk
  cases hk

theorem classesInProps_filter (t : List Triple) (classes ops : List String) :
    classesInProps (t.filter (relevantTriple classes)) classes ops =
      classesInProps t classes ops := by
  unfold classesInProps
  rw [classesInDomain_filter, classesInRange_filter]

theorem propDomains_filter (t : List Triple) (classes : List String)
    (p : String) :
    propDomains (t.filter (relevantTriple classes)) classes p =
      propDomains t classes p := by
  unfold propDomains
  rw [filter_filter_imp]
  intro tr htr
  rw [decide_eq_true_eq] at htr
  exact relevant_of_domain htr.2.1 htr.2.2

theorem propRanges_filter (t : List Triple) (classes : List String)
    (p : String) :
    propRanges (t.filter (relevantTriple classes)) classes p =
      propRanges t classes p := by
  unfold propRanges
  rw [filter_filter_imp]
  intro tr htr
  rw [decide_eq_true_eq] at htr
  exact relevant_of_range htr.2.1 htr.2.2

theorem buildAdjacency_filter (t : List Triple) (classes ops : List String) :
    buildAdjacency (t.filter (relevantTriple classes)) classes ops =
      buildAdjacency t classes ops := by
  have h1 : (t.filter (relevantTriple classes)).foldl
      (fun acc tr =>
        if tr.pred = rdfsSubClassOf ∧ tr.subj ∈ classes ∧ tr.obj ∈ classes then
          adjAdd (adjAdd acc tr.subj tr.obj) tr.obj tr.subj
        else acc) ([] : Adj) =
      t.foldl
        (fun acc tr =>
          if tr.pred = rdfsSubClassOf ∧ tr.subj ∈ classes ∧ tr.obj ∈ classes then
            adjAdd (adjAdd acc tr.subj tr.obj) tr.obj tr.subj
          else acc) ([] : Adj) := by
    refine foldl_filter_eq (fun b tr hk => ?_) t []
    rw [if_neg]
    rintro ⟨hp, hs, ho⟩
    rw [relevant_of_subclass hp hs ho] at hk
    cases hk
  have h2 : ∀ (b : Adj) (p : String), p ∈ ops →
      (propDomains (t.filter (relevantTriple classes)) classes p).foldl
        (fun accd d =>
          (propRanges (t.filter (relevantTriple classes)) classes p).foldl
            (fun accr r => adjAdd (adjAdd accr d r) r d) accd) b =
      (propDomains t classes p).foldl
        (fun accd d =>
          (propRanges t classes p).foldl
            (fun accr r => adjAdd (adjAdd accr d r) r d) accd) b := by
    intro b p _
    rw [propDomains_filter, propRanges_filter]
  simp only [buildAdjacency]
  rw [h1, foldl_ext ops h2]

theorem propertyCoverageRaw_filter (t : List Triple)
    (classes ops : List String) :
    propertyCoverageRaw (t.filter (relevantTriple classes)) classes ops =
      propertyCoverageRaw t classes ops := by
  unfold propertyCoverageRaw
  rw [classesInProps_filter]

/-- C9: triples irrelevant to the class set — domain or range assertions
whose object is not a declared class, and subtype assertions with an
endpoint that is not a declared class — contribute nothing: deleting all
of them leaves the full `(metrics, report)` output of the analyzer
unchanged, hence also coverage, adjacency, components, degree statistics
and the report text. -/
theorem c9_nonclass_references_ignored (t : List Triple)
    (classes objProps dataProps individuals : List String) :
    connectivityMetrics (t.filter (relevantTriple classes)) classes objProps
        dataProps individuals =
      connectivityMetrics t classes objProps dataProps individuals := by
  unfold connectivityMetrics
  have hm : connMetricsOf (t.filter (relevantTriple classes)) classes objProps =
      connMetricsOf t classes objProps := by
    simp only [connMetricsOf]
    rw [buildAdjacency_filter, classesInProps_filter, propertyCoverageRaw_filter]
  have hr : connReportOf (t.filter (relevantTriple classes)) classes objProps
      dataProps = connReportOf t classes objProps dataProps := by
    simp only [connReportOf]
    rw [buildAdjacency_filter, classesInProps_filter, propertyCoverageRaw_filter]
  rw [hm, hr]

end OntologyEngine



